import Mathlib

/-!
Shallow embedding of the RF voltage-ramp sweep controller of
`src/main_app.py` (class `MainWindow`): the profile computation and
upload (`preview_volt_evol`), and the start/pause/resume sweep state
machine (`toggle_volt_evol`, `simul_volt_evol`, `end_volt_evol`,
`resume_simul_volt_evol`).

Numeric modelling: Python/numpy floats are modelled by `ℚ` for exact
reasoning.  numpy's non-raising elementwise arithmetic is modelled by
`NpVal`, where `NpVal.nonfinite` stands for any non-finite float (nan
or ±inf): on the expressions occurring in this program every IEEE
operation with a non-finite operand again yields a non-finite result,
so merging nan and ±inf into one constructor is sound here.

Qt modelling: `QTimer` state is the pair of a Boolean `timerActive`
(`rf_timer.isActive()`) and, at a pause, the sampled value `r` of
`rf_timer.remainingTime()`, which is an environment input.  A scheduled
`QTimer.singleShot` callback is modelled by a pending flag
(`resumePending`, `pendingEnable`); a `singleShot` cannot be cancelled,
so nothing in the model ever clears those flags except the firing of
the callback itself.  Instrument calls (`SMA1000B` driver) either
succeed or raise; which calls succeed is an `InstrEnv` oracle, and a
raised exception escapes the Qt slot uncaught (the Boolean in the
result of the `..E` functions), leaving whatever local mutations had
already been performed in place — exactly as CPython/PyQt behaves.
-/

namespace IonGui

/-- The two sweep directions (open trap / close trap). -/
inductive Direction where
  | opening
  | closing
deriving DecidableEq

/-- The spec's controller phases. -/
inductive Phase where
  | Idle
  | Running
  | Paused
deriving DecidableEq

/-- A Qt push button: its label text and enabled flag. -/
structure Btn where
  text : String
  enabled : Bool
deriving DecidableEq

/-- The mutable state of `MainWindow` that the sweep controller touches.

* `remainingTime`  — `self.rf_remaining_time` (ms)
* `timerActive`    — `self.rf_timer.isActive()`
* `sim`            — `self.rf_sim`
* `simEnd`         — `self.rf_sim_end`
* `vline`          — value of the position marker `self.rf_sim_vline`
* `interval`       — `self.rf_timer.interval()` (ms)
* `resumePending`  — a `QTimer.singleShot(..., resume_simul_volt_evol)` is scheduled
* `pendingEnable`  — a `QTimer.singleShot(1000, btn.setEnabled(True))` is scheduled
* `openBtn`/`closeBtn` — `self.rf_open_trap_btn` / `self.rf_close_trap_btn`
* `controlsEnabled` — whether the widgets of `self.rf_controls` are enabled
* `instrRunning`   — whether the instrument is executing a list sweep
* `selectedProgram` — the list-sweep file last selected via `change_list_sweep`
-/
structure RFState where
  remainingTime : ℕ
  timerActive : Bool
  sim : ℕ
  simEnd : ℕ
  vline : ℚ
  interval : ℤ
  resumePending : Bool
  pendingEnable : Option Direction
  openBtn : Btn
  closeBtn : Btn
  controlsEnabled : Bool
  instrRunning : Bool
  selectedProgram : Option Direction
deriving DecidableEq

/-- Oracle telling which instrument calls succeed during one transition:
`statusOk` covers the reads done by `update_rf_status`
(`get_frequency`, `get_power`), the others cover `stop_sweep`,
`start_list_sweep` and `change_list_sweep`. -/
structure InstrEnv where
  statusOk : Bool
  stopOk : Bool
  startOk : Bool
  changeOk : Bool
deriving DecidableEq

/-- The environment in which every instrument call succeeds. -/
def okEnv : InstrEnv := ⟨true, true, true, true⟩

/-- A numpy float value: either a finite value (modelled exactly by `ℚ`)
or a non-finite one (nan or ±inf, merged). -/
inductive NpVal where
  | fin (q : ℚ)
  | nonfinite
deriving DecidableEq

/-- Elementwise numpy division: a zero divisor does not raise, it yields a
non-finite value (nan for 0/0, ±inf otherwise) with only a warning. -/
def npDiv : NpVal → NpVal → NpVal
  | NpVal.fin a, NpVal.fin b => if b = 0 then NpVal.nonfinite else NpVal.fin (a / b)
  | _, _ => NpVal.nonfinite

/-- Elementwise numpy multiplication; non-finite operands propagate. -/
def npMul : NpVal → NpVal → NpVal
  | NpVal.fin a, NpVal.fin b => NpVal.fin (a * b)
  | _, _ => NpVal.nonfinite

/-- Elementwise numpy addition; non-finite operands propagate. -/
def npAdd : NpVal → NpVal → NpVal
  | NpVal.fin a, NpVal.fin b => NpVal.fin (a + b)
  | _, _ => NpVal.nonfinite

/-- Commands issued to the instrument driver `self.rf`, recorded so that
frame properties ("upload never starts a sweep") can be stated. -/
inductive Cmd where
  | setListSweep (d : Direction) (vals : List NpVal)
  | changeListSweep (d : Direction)
  | startSweep
  | stopSweep
  | getFrequency
  | getPower
deriving DecidableEq

/-- Models `t = np.arange(0, T * (N + 1), T)` (line 266) in exact
arithmetic for a positive step `T`: the samples are `i * T` for
`i = 0 .. N`, the excluded stop being `(N + 1) * T`. -/
def timeSamples (T : ℚ) (N : ℕ) : List ℚ :=
  (List.range (N + 1)).map (fun i : ℕ => (i : ℚ) * T)

/-- Models line 276,
`V_t = (V_t - V_t[0]) / (V_t[-1] - V_t[0]) * (V_close - V_open) + V_open`:
elementwise normalisation by the span between the first (`V_t[0]`) and
last (`V_t[-1]`) evaluated formula values, then affine rescaling into
`[V_open, V_close]`.  A zero span makes `npDiv` produce non-finite
values instead of raising. -/
def npRescale (fvals : List ℚ) (Vo Vc : ℚ) : List NpVal :=
  let f0 := fvals.headI
  let fN := fvals.getLastD 0
  fvals.map (fun v =>
    npAdd (npMul (npDiv (NpVal.fin (v - f0)) (NpVal.fin (fN - f0)))
                 (NpVal.fin (Vc - Vo)))
          (NpVal.fin Vo))

/-- The pure core of `preview_volt_evol` (lines 262–276): the guard
`if V_open > V_close: raise ...` models the only exception of the pure
computation (`none` = the `except` branch is taken); `f` models a
formula whose evaluation over the time samples succeeded elementwise.
Note that a zero-span (constant) formula is NOT an error here: numpy
division produces non-finite values without raising. -/
def previewCompute (Vo Vc T : ℚ) (N : ℕ) (f : ℚ → ℚ) : Option (List NpVal) :=
  if Vo > Vc then none
  else some (npRescale ((timeSamples T N).map f) Vo Vc)

/-- The two uploaded list-sweep programs (lines 279–290):
`closing` is uploaded as `pow_list=V_t` to `RF_CLOSE_TRAP_FILENAME`,
`opening` as `pow_list=V_t[::-1]` to `RF_OPEN_TRAP_FILENAME`. -/
structure Programs where
  closing : List NpVal
  opening : List NpVal
deriving DecidableEq

/-- The programs derived from a successful profile computation. -/
def previewPrograms (Vo Vc T : ℚ) (N : ℕ) (f : ℚ → ℚ) : Option Programs :=
  (previewCompute Vo Vc T N f).map (fun V => ⟨V, V.reverse⟩)

/-- `lock_rf_control` (lines 394–400): disables every input control and
both trap buttons (the status-label text is not modelled). -/
def lock_rf_control (s : RFState) : RFState :=
  { s with controlsEnabled := false,
           openBtn := { s.openBtn with enabled := false },
           closeBtn := { s.closeBtn with enabled := false } }

/-- `unlock_rf_control` (lines 402–405): re-enables the input controls. -/
def unlock_rf_control (s : RFState) : RFState :=
  { s with controlsEnabled := true }

/-- Applies `f` to the button selected by `toggle_volt_evol`'s `open`
parameter (lines 340–343): `rf_open_trap_btn` when true, else
`rf_close_trap_btn`. -/
def setBtn (openDir : Bool) (f : Btn → Btn) (s : RFState) : RFState :=
  if openDir then { s with openBtn := f s.openBtn }
  else { s with closeBtn := f s.closeBtn }

/-- The direction selected by the Boolean `open` parameter. -/
def dirOf (openDir : Bool) : Direction :=
  if openDir then Direction.opening else Direction.closing

/-- `end_volt_evol` (lines 328–337) under the instrument oracle `env`.
Order as in the source: `update_rf_status()` (instrument reads),
`rf_timer.stop()`, `rf.stop_sweep()`, `unlock_rf_control()`, the
optional re-enabling of both trap buttons, and the reset of both button
labels.  The second component is `true` when an instrument call raised;
the state returned then holds exactly the mutations made before the
raise. -/
def end_volt_evolE (env : InstrEnv) (enableBtn : Bool) (s : RFState) :
    RFState × Bool :=
  if env.statusOk = false then (s, true)
  else
    let s1 := { s with timerActive := false }
    if env.stopOk = false then (s1, true)
    else
      let s2 := unlock_rf_control { s1 with instrRunning := false }
      let s3 :=
        if enableBtn then
          { s2 with openBtn := { s2.openBtn with enabled := true },
                    closeBtn := { s2.closeBtn with enabled := true } }
        else s2
      ({ s3 with openBtn := { s3.openBtn with text := "Open Trap" },
                 closeBtn := { s3.closeBtn with text := "Close Trap" } },
       false)

/-- `end_volt_evol` when every instrument call succeeds. -/
def end_volt_evol (enableBtn : Bool) (s : RFState) : RFState :=
  (end_volt_evolE okEnv enableBtn s).1

/-- `simul_volt_evol` (lines 314–321), the periodic tick: move the
position marker to `rf_sim * interval / 1000`; on `rf_sim >= rf_sim_end`
disable both trap buttons, reset the marker to 0 and run
`end_volt_evol()` (natural completion); finally `rf_sim += 1`.
Instrument calls inside the completion are taken to succeed. -/
def simul_volt_evol (s : RFState) : RFState :=
  let s1 := { s with vline := (s.sim : ℚ) * (s.interval : ℚ) / 1000 }
  let s2 :=
    if s1.simEnd ≤ s1.sim then
      end_volt_evol true
        { s1 with openBtn := { s1.openBtn with enabled := false },
                  closeBtn := { s1.closeBtn with enabled := false },
                  vline := 0 }
    else s1
  { s2 with sim := s2.sim + 1 }

/-- `resume_simul_volt_evol` (lines 323–326), the body of the one-shot
scheduled on resume: the pending shot fires, one catch-up tick runs,
the periodic timer restarts, and the toggled button is re-enabled. -/
def resume_simul_volt_evol (openDir : Bool) (s : RFState) : RFState :=
  let s1 := simul_volt_evol { s with resumePending := false }
  let s2 := { s1 with timerActive := true }
  setBtn openDir (fun b => { b with enabled := true }) s2

/-- `toggle_volt_evol` (lines 339–376) under the instrument oracle
`env`; `r` is the value `rf_timer.remainingTime()` would return at the
moment of the call (only read in the pausing branch).  The three
branches follow the source dispatch exactly:

* `if self.rf_remaining_time:` — resuming: `start_list_sweep()`, then
  schedule the one-shot resume, zero `rf_remaining_time`, relabel the
  toggled button "Pause" and disable it;
* `elif self.rf_timer.isActive():` — pausing: store
  `rf_timer.remainingTime()` into `rf_remaining_time` FIRST, then
  `end_volt_evol(False)`, relabel the toggled button "Resume" and
  schedule its one-shot re-enable;
* else — starting: `change_list_sweep` for the toggled direction,
  `start_list_sweep()`, start the timer, `rf_sim = 1`,
  `lock_rf_control()`, enable the toggled button, label it "Pause".

The second component is `true` when an instrument call raised; local
mutations performed before the raise persist. -/
def toggle_volt_evolE (env : InstrEnv) (openDir : Bool) (r : ℕ) (s : RFState) :
    RFState × Bool :=
  if s.remainingTime ≠ 0 then
    -- resuming
    if env.startOk = false then (s, true)
    else
      let s1 := { s with instrRunning := true, resumePending := true,
                         remainingTime := 0 }
      (setBtn openDir (fun b => { b with text := "Pause", enabled := false }) s1,
       false)
  else if s.timerActive then
    -- pausing
    let s1 := { s with remainingTime := r }
    let p := end_volt_evolE env false s1
    if p.2 then p
    else
      let s2 := setBtn openDir (fun b => { b with text := "Resume" }) p.1
      ({ s2 with pendingEnable := some (dirOf openDir) }, false)
  else
    -- starting
    if env.changeOk = false then (s, true)
    else
      let s1 := { s with selectedProgram := some (dirOf openDir) }
      if env.startOk = false then (s1, true)
      else
        let s2 := lock_rf_control
          { s1 with instrRunning := true, timerActive := true, sim := 1 }
        (setBtn openDir (fun b => { b with text := "Pause", enabled := true }) s2,
         false)

/-- `toggle_volt_evol` when every instrument call succeeds. -/
def toggle_volt_evol (openDir : Bool) (r : ℕ) (s : RFState) : RFState :=
  (toggle_volt_evolE okEnv openDir r s).1

/-- The commands `end_volt_evol` issues: the `update_rf_status` reads,
then `stop_sweep` (the timer stop is not an instrument command). -/
def endCmds : List Cmd := [Cmd.getFrequency, Cmd.getPower, Cmd.stopSweep]

/-- `preview_volt_evol` (lines 260–312) as a state transformer together
with the instrument commands it issues, all instrument calls
succeeding.  Source order: `rf_remaining_time = 0` first (before the
`try`); on success of the pure computation the two `set_list_sweep`
uploads (closing program `V_t`, then opening program `V_t[::-1]`), the
re-enabling of both trap buttons, `rf_sim_end = N`, a fresh position
marker at 0, `rf_timer.setInterval(int(T * 1000))`; on failure only the
error text is drawn; in both cases `end_volt_evol()` runs last ("to
cancel all running timer and reset buttons"). -/
def preview_volt_evol (Vo Vc T : ℚ) (N : ℕ) (f : ℚ → ℚ) (s : RFState) :
    RFState × List Cmd :=
  let s0 := { s with remainingTime := 0 }
  match previewCompute Vo Vc T N f with
  | some V =>
      let s1 := { s0 with
        openBtn := { s0.openBtn with enabled := true },
        closeBtn := { s0.closeBtn with enabled := true },
        simEnd := N, vline := 0, interval := Int.floor (T * 1000) }
      (end_volt_evol true s1,
       [Cmd.setListSweep Direction.closing V,
        Cmd.setListSweep Direction.opening V.reverse] ++ endCmds)
  | none => (end_volt_evol true s0, endCmds)

/-- The input controls of `self.rf_controls` (lines 184–193) together
with the two widgets hooked separately; `numSteps` is
`self.rf_num_steps`. -/
inductive Control where
  | curFreq
  | curVolt
  | openVolt
  | closeVolt
  | stepInt
  | numSteps
  | formula
  | previewBtn
deriving DecidableEq

/-- The Qt widget class of each control, as in the `.ui` file /
`load_config` (line 138 treats exactly `rf_num_steps` as the non-double
spin box). -/
inductive QtType where
  | doubleSpinBox
  | intSpinBox
  | lineEdit
  | pushButton
deriving DecidableEq

/-- Widget classes of the controls in `self.rf_controls`. -/
def controlType : Control → QtType
  | Control.curFreq => QtType.doubleSpinBox
  | Control.curVolt => QtType.doubleSpinBox
  | Control.openVolt => QtType.doubleSpinBox
  | Control.closeVolt => QtType.doubleSpinBox
  | Control.stepInt => QtType.doubleSpinBox
  | Control.numSteps => QtType.intSpinBox
  | Control.formula => QtType.lineEdit
  | Control.previewBtn => QtType.pushButton

/-- Whether the hook loop of `init_rf_control` (lines 194–208) connects
the control's change signal to disabling both trap buttons: it does so
only for `QDoubleSpinBox` (`valueChanged`) and `QLineEdit`
(`textChanged`); any other class — in particular the `QSpinBox`
`rf_num_steps` — falls through both branches and gets no hook. -/
def disableHookConnected (c : Control) : Bool :=
  controlType c == QtType.doubleSpinBox || controlType c == QtType.lineEdit

/-- The effect on the modelled state of the user changing input control
`c`: both trap buttons are disabled iff the disable hook was connected
for `c`. -/
def inputChange (c : Control) (s : RFState) : RFState :=
  if disableHookConnected c then
    { s with openBtn := { s.openBtn with enabled := false },
             closeBtn := { s.closeBtn with enabled := false } }
  else s

/-- The spec's derived phase of the controller, read off the state the
way `toggle_volt_evol`'s dispatch plus the pending resume shot
determine it: a nonzero `rf_remaining_time` means `Paused`; an active
periodic timer or a scheduled resume shot means `Running`; otherwise
`Idle`. -/
def phase (s : RFState) : Phase :=
  if s.remainingTime ≠ 0 then Phase.Paused
  else if s.timerActive || s.resumePending then Phase.Running
  else Phase.Idle

/-- A concrete idle state right after a successful preview with
`N = 4`, interval 1000 ms: both trap buttons enabled with their default
labels, nothing running. -/
def freshState : RFState :=
  { remainingTime := 0, timerActive := false, sim := 0, simEnd := 4,
    vline := 0, interval := 1000, resumePending := false,
    pendingEnable := none,
    openBtn := { text := "Open Trap", enabled := true },
    closeBtn := { text := "Close Trap", enabled := true },
    controlsEnabled := true, instrRunning := false,
    selectedProgram := none }

/-- `freshState` after `toggle_volt_evol(True)`: the opening sweep is
running. -/
def runState : RFState := toggle_volt_evol true 0 freshState

/-- The oracle in which the `update_rf_status` reads fail (instrument
unreachable) while everything else would succeed. -/
def badStatusEnv : InstrEnv :=
  { statusOk := false, stopOk := true, startOk := true, changeOk := true }

/-- The oracle in which `start_list_sweep` fails while everything else
succeeds. -/
def badStartEnv : InstrEnv :=
  { statusOk := true, stopOk := true, startOk := false, changeOk := true }

/-- The oracle in which `change_list_sweep` fails while everything else
succeeds. -/
def badChangeEnv : InstrEnv :=
  { statusOk := true, stopOk := true, startOk := true, changeOk := false }

/-- `runState` paused by a second toggle that captured 500 ms of
remaining tick time. -/
def pausedState : RFState := toggle_volt_evol true 500 runState

/-- `freshState` after the user edits the step-interval spin box: the
connected hook disables both trap actions. -/
def disabledState : RFState := inputChange Control.stepInt freshState

/-- The programs computed from the spec's worked example
`open_v = 0, close_v = 10, step_interval = 1, step_count = 4,
formula = "t"`: closing `[0, 2.5, 5, 7.5, 10]` and its reverse. -/
def examplePrograms : Programs :=
  { closing := [NpVal.fin 0, NpVal.fin (5 / 2), NpVal.fin 5,
                NpVal.fin (15 / 2), NpVal.fin 10],
    opening := [NpVal.fin 10, NpVal.fin (15 / 2), NpVal.fin 5,
                NpVal.fin (5 / 2), NpVal.fin 0] }


/-! ### Helper lemmas -/

/-- The derived phase is `Idle` exactly when nothing is pending: no
stored remaining time, no active timer, no scheduled resume shot. -/
lemma phase_eq_idle (s : RFState) :
    phase s = Phase.Idle ↔
      s.remainingTime = 0 ∧ s.timerActive = false ∧ s.resumePending = false := by
  cases hA : s.timerActive <;> cases hP : s.resumePending <;>
    by_cases h0 : s.remainingTime = 0 <;>
      simp [phase, hA, hP, h0]

/-! ### C1 — toggle: Idle → Running → Paused → Running at the same position -/

/-- C1.  Starting from any `Idle` state, the first `toggle` (either
direction `d`) starts the sweep, so the phase becomes `Running`; the
second `toggle` pauses it, storing the tick source's remaining time
`r2` (`Paused` with `remaining_time_ms > 0`, given the sampled
remaining time is positive); the third `toggle` resumes, the phase
becomes `Running` again and both the simulated step index `sim` and the
position marker `vline` are exactly what they were when the pause was
entered — the position is unchanged across the pause/resume pair. -/
theorem C1_toggle_run_pause_resume (s : RFState) (d : Bool) (r1 r2 r3 : ℕ)
    (hIdle : phase s = Phase.Idle) (hr2 : r2 ≠ 0) :
    phase (toggle_volt_evol d r1 s) = Phase.Running ∧
    phase (toggle_volt_evol d r2 (toggle_volt_evol d r1 s)) = Phase.Paused ∧
    0 < (toggle_volt_evol d r2 (toggle_volt_evol d r1 s)).remainingTime ∧
    phase (toggle_volt_evol d r3
      (toggle_volt_evol d r2 (toggle_volt_evol d r1 s))) = Phase.Running ∧
    (toggle_volt_evol d r3
      (toggle_volt_evol d r2 (toggle_volt_evol d r1 s))).sim =
      (toggle_volt_evol d r1 s).sim ∧
    (toggle_volt_evol d r3
      (toggle_volt_evol d r2 (toggle_volt_evol d r1 s))).vline =
      (toggle_volt_evol d r1 s).vline := by
  obtain ⟨hrem, hact, hpend⟩ := (phase_eq_idle s).mp hIdle
  cases d <;>
    simp [toggle_volt_evol, toggle_volt_evolE, okEnv, end_volt_evolE, setBtn,
          dirOf, lock_rf_control, unlock_rf_control, phase, hrem, hact, hpend,
          hr2, Nat.pos_of_ne_zero]

/-- Witness for C1 at the concrete idle state `freshState` with a
sampled remaining time of 500 ms. -/
theorem C1_witness :
    phase (toggle_volt_evol true 0 freshState) = Phase.Running ∧
    phase (toggle_volt_evol true 500 (toggle_volt_evol true 0 freshState)) =
      Phase.Paused ∧
    0 < (toggle_volt_evol true 500
      (toggle_volt_evol true 0 freshState)).remainingTime ∧
    phase (toggle_volt_evol true 0 (toggle_volt_evol true 500
      (toggle_volt_evol true 0 freshState))) = Phase.Running ∧
    (toggle_volt_evol true 0 (toggle_volt_evol true 500
      (toggle_volt_evol true 0 freshState))).sim =
      (toggle_volt_evol true 0 freshState).sim ∧
    (toggle_volt_evol true 0 (toggle_volt_evol true 500
      (toggle_volt_evol true 0 freshState))).vline =
      (toggle_volt_evol true 0 freshState).vline :=
  C1_toggle_run_pause_resume freshState true 0 500 0 (by decide) (by decide)

/-! ### C10 — a pause that captures 0 ms is indistinguishable from Idle -/

/-- C10.  Pausing a running sweep at the moment the tick source reports
exactly 0 ms remaining stores `rf_remaining_time = 0`; the dispatch of
the next `toggle` then sees a state indistinguishable from `Idle`
(first branch false because `rf_remaining_time` is falsy, second false
because the timer was stopped), so it performs a fresh start rather
than a resume: the program for the newly toggled direction is
re-selected via `change_list_sweep`, the step index is reset to its
start-branch initial value `rf_sim = 1` whatever it was before, and no
resume shot is scheduled. -/
theorem C10_zero_remaining_pause (s : RFState) (d1 d2 : Bool) (r3 : ℕ)
    (h0 : s.remainingTime = 0) (hA : s.timerActive = true)
    (hP : s.resumePending = false) :
    phase (toggle_volt_evol d1 0 s) = Phase.Idle ∧
    (toggle_volt_evol d2 r3 (toggle_volt_evol d1 0 s)).sim = 1 ∧
    (toggle_volt_evol d2 r3 (toggle_volt_evol d1 0 s)).selectedProgram =
      some (dirOf d2) ∧
    (toggle_volt_evol d2 r3 (toggle_volt_evol d1 0 s)).resumePending = false ∧
    phase (toggle_volt_evol d2 r3 (toggle_volt_evol d1 0 s)) = Phase.Running := by
  cases d1 <;> cases d2 <;>
    simp [toggle_volt_evol, toggle_volt_evolE, okEnv, end_volt_evolE, setBtn,
          dirOf, lock_rf_control, unlock_rf_control, phase, h0, hA, hP]

/-- Witness for C10: pause the running opening sweep of `runState`
(where `sim = 1`, but the theorem applies to any running state) with a
captured remaining time of 0 ms, then toggle the closing direction. -/
theorem C10_witness :
    phase (toggle_volt_evol true 0 runState) = Phase.Idle ∧
    (toggle_volt_evol false 0 (toggle_volt_evol true 0 runState)).sim = 1 ∧
    (toggle_volt_evol false 0 (toggle_volt_evol true 0 runState)).selectedProgram =
      some (dirOf false) ∧
    (toggle_volt_evol false 0 (toggle_volt_evol true 0 runState)).resumePending =
      false ∧
    phase (toggle_volt_evol false 0 (toggle_volt_evol true 0 runState)) =
      Phase.Running :=
  C10_zero_remaining_pause runState true false 0 (by decide) (by decide)
    (by decide)


/-! ### C2 — natural completion after exactly `step_count` ticks -/

/-- A tick that has not yet reached `rf_sim_end` only moves the marker
and advances `rf_sim`. -/
lemma simul_volt_evol_no_complete (t : RFState) (h : ¬ t.simEnd ≤ t.sim) :
    simul_volt_evol t =
      { t with vline := (t.sim : ℚ) * (t.interval : ℚ) / 1000,
               sim := t.sim + 1 } := by
  simp [simul_volt_evol, h]

/-- Invariant along the first `N - 1` ticks of a freshly started sweep:
after `k < N` ticks the step index is `k + 1`, the timer is still
active and nothing else that the dispatch reads has changed. -/
lemma simul_run_invariant (s : RFState) (N : ℕ)
    (hA : s.timerActive = true) (h0 : s.remainingTime = 0)
    (hp : s.resumePending = false) (he : s.simEnd = N) (hs : s.sim = 1) :
    ∀ k, k < N →
      (simul_volt_evol^[k] s).sim = k + 1 ∧
      (simul_volt_evol^[k] s).timerActive = true ∧
      (simul_volt_evol^[k] s).remainingTime = 0 ∧
      (simul_volt_evol^[k] s).resumePending = false ∧
      (simul_volt_evol^[k] s).simEnd = N := by
  intro k
  induction k with
  | zero => intro _; simp [hs, hA, h0, hp, he]
  | succ k ih =>
      intro hk
      obtain ⟨ihs, ihA, ih0, ihp, ihe⟩ := ih (Nat.lt_of_succ_lt hk)
      have hlt : ¬ (simul_volt_evol^[k] s).simEnd ≤ (simul_volt_evol^[k] s).sim := by
        rw [ihs, ihe]
        exact Nat.not_le_of_lt hk
      rw [Function.iterate_succ_apply',
          simul_volt_evol_no_complete _ hlt]
      exact ⟨by simp [ihs], by simp [ihA], by simp [ih0], by simp [ihp],
             by simp [ihe]⟩

/-- C2.  From a freshly started running sweep with `step_count = N ≥ 1`
(`rf_sim = 1`, timer active, nothing pending), each of the first
`N - 1` ticks leaves the phase `Running`, and the `N`-th tick completes
the sweep: the phase is back to `Idle`, the periodic tick source is
stopped (`rf_timer.stop()`), the instrument has been told to halt
(`rf.stop_sweep()`), the position marker is reset to 0, the input
controls are re-enabled (`unlock_rf_control`), and both direction
buttons carry their default labels again. -/
theorem C2_natural_completion (s : RFState) (N : ℕ) (hN : 1 ≤ N)
    (hA : s.timerActive = true) (h0 : s.remainingTime = 0)
    (hp : s.resumePending = false) (he : s.simEnd = N) (hs : s.sim = 1) :
    (∀ k, k < N → phase (simul_volt_evol^[k] s) = Phase.Running) ∧
    phase (simul_volt_evol^[N] s) = Phase.Idle ∧
    (simul_volt_evol^[N] s).timerActive = false ∧
    (simul_volt_evol^[N] s).instrRunning = false ∧
    (simul_volt_evol^[N] s).vline = 0 ∧
    (simul_volt_evol^[N] s).controlsEnabled = true ∧
    (simul_volt_evol^[N] s).openBtn.text = "Open Trap" ∧
    (simul_volt_evol^[N] s).closeBtn.text = "Close Trap" := by
  have inv := simul_run_invariant s N hA h0 hp he hs
  constructor
  · intro k hk
    obtain ⟨-, ikA, ik0, -, -⟩ := inv k hk
    simp [phase, ikA, ik0]
  · obtain ⟨M, rfl⟩ : ∃ M, N = M + 1 :=
      ⟨N - 1, (Nat.succ_pred_eq_of_pos hN).symm⟩
    obtain ⟨ihs, ihA, ih0, ihp, ihe⟩ := inv M (Nat.lt_succ_self M)
    rw [Function.iterate_succ_apply']
    have hge : (simul_volt_evol^[M] s).simEnd ≤ (simul_volt_evol^[M] s).sim := by
      rw [ihs, ihe]
    simp [simul_volt_evol, hge, end_volt_evol, end_volt_evolE, okEnv,
          unlock_rf_control, phase, ih0, ihp]

/-- Witness for C2 at the concrete running sweep `runState`
(`step_count = 4`). -/
theorem C2_witness :
    phase (simul_volt_evol^[4] runState) = Phase.Idle ∧
    (simul_volt_evol^[4] runState).timerActive = false ∧
    (simul_volt_evol^[4] runState).instrRunning = false ∧
    (simul_volt_evol^[4] runState).vline = 0 ∧
    (simul_volt_evol^[4] runState).controlsEnabled = true ∧
    (simul_volt_evol^[4] runState).openBtn.text = "Open Trap" ∧
    (simul_volt_evol^[4] runState).closeBtn.text = "Close Trap" :=
  (C2_natural_completion runState 4 (by decide) (by decide) (by decide)
    (by decide) (by decide) (by decide)).2

/-! ### C3 — mutual exclusion of the two directions fails -/

/-- C3 counterexample.  Start the opening sweep from `freshState`, then
toggle the closing direction while it is `Running` (the tick source
would report 500 ms to the next tick).  The call raises no error
(second component `false`), yet the opening sweep is NOT forced to
`Idle`: the shared state is `Paused` (the captured 500 ms make it
resumable), the instrument still has the OPENING program selected,
while the CLOSING button now reads "Resume" (and the opening button its
default label) — a mixed state attributing the paused opening sweep to
the closing direction.  This falsifies the claim that the toggle either
forces the other direction to `Idle` first or fails with a
"sweep already active" error. -/
theorem C3_counterexample :
    (toggle_volt_evolE okEnv false 500 (toggle_volt_evol true 0 freshState)).2 =
      false ∧
    phase (toggle_volt_evolE okEnv false 500
      (toggle_volt_evol true 0 freshState)).1 = Phase.Paused ∧
    (toggle_volt_evolE okEnv false 500
      (toggle_volt_evol true 0 freshState)).1.selectedProgram =
      some Direction.opening ∧
    (toggle_volt_evolE okEnv false 500
      (toggle_volt_evol true 0 freshState)).1.closeBtn.text = "Resume" ∧
    (toggle_volt_evolE okEnv false 500
      (toggle_volt_evol true 0 freshState)).1.openBtn.text = "Open Trap" := by
  decide

/-- C3 amended.  Toggling direction `d` while the other direction's
sweep is `Running` neither forces it to `Idle` nor fails: the shared
pause branch runs — no error is raised, the captured remaining time `r`
is stored (so for `r ≠ 0` the controller is `Paused` and resumable),
the periodic timer stops, the instrument is halted but its selected
program is unchanged, the toggled direction's button is relabeled
"Resume" while the other button reverts to its default label.  (A later
toggle on either button therefore resumes the old direction's program
under the new label.) -/
theorem C3_amended (s : RFState) (d : Bool) (r : ℕ)
    (h0 : s.remainingTime = 0) (hA : s.timerActive = true) (hr : r ≠ 0) :
    (toggle_volt_evolE okEnv d r s).2 = false ∧
    phase (toggle_volt_evolE okEnv d r s).1 = Phase.Paused ∧
    (toggle_volt_evolE okEnv d r s).1.remainingTime = r ∧
    (toggle_volt_evolE okEnv d r s).1.selectedProgram = s.selectedProgram ∧
    (toggle_volt_evolE okEnv d r s).1.timerActive = false ∧
    (toggle_volt_evolE okEnv d r s).1.instrRunning = false ∧
    (toggle_volt_evolE okEnv d r s).1.openBtn.text =
      (if d then "Resume" else "Open Trap") ∧
    (toggle_volt_evolE okEnv d r s).1.closeBtn.text =
      (if d then "Close Trap" else "Resume") := by
  cases d <;>
    simp [toggle_volt_evolE, okEnv, end_volt_evolE, setBtn, dirOf,
          unlock_rf_control, phase, h0, hA, hr]

/-- Witness for the amended C3 at the concrete running opening sweep
`runState`, toggling the closing direction with 500 ms remaining. -/
theorem C3_amended_witness :
    (toggle_volt_evolE okEnv false 500 runState).2 = false ∧
    phase (toggle_volt_evolE okEnv false 500 runState).1 = Phase.Paused ∧
    (toggle_volt_evolE okEnv false 500 runState).1.remainingTime = 500 ∧
    (toggle_volt_evolE okEnv false 500 runState).1.selectedProgram =
      runState.selectedProgram ∧
    (toggle_volt_evolE okEnv false 500 runState).1.timerActive = false ∧
    (toggle_volt_evolE okEnv false 500 runState).1.instrRunning = false ∧
    (toggle_volt_evolE okEnv false 500 runState).1.openBtn.text =
      (if false then "Resume" else "Open Trap") ∧
    (toggle_volt_evolE okEnv false 500 runState).1.closeBtn.text =
      (if false then "Close Trap" else "Resume") :=
  C3_amended runState false 500 (by decide) (by decide) (by decide)


/-! ### C4 — hardware failures during transitions -/

/-- C4 counterexample.  Pausing the running sweep `runState` while the
instrument is unreachable (`badStatusEnv`: the reads inside
`update_rf_status` raise): the exception escapes raw (second component
`true`, there is no `SweepHardwareError` wrapper anywhere in the code),
and the local controller state is NOT what it was before the attempted
transition — `rf_remaining_time` was committed to 700 before the first
instrument call, while the timer is still active; the state even
violates the `Paused`-only invariant on `remaining_time_ms`. -/
theorem C4_counterexample :
    runState.remainingTime = 0 ∧ runState.timerActive = true ∧
    (toggle_volt_evolE badStatusEnv false 700 runState).2 = true ∧
    (toggle_volt_evolE badStatusEnv false 700 runState).1.remainingTime = 700 ∧
    (toggle_volt_evolE badStatusEnv false 700 runState).1.timerActive = true ∧
    (toggle_volt_evolE badStatusEnv false 700 runState).1 ≠ runState := by
  decide

/-- C4 amended.  No instrument-communication failure is wrapped into a
`SweepHardwareError` (no such type exists); the raw exception escapes
the Qt slot (the `true` flag).  What does hold branch by branch of
`toggle_volt_evol`:

* resume: `start_list_sweep` is called before any local mutation, so on
  failure the whole state is unchanged;
* start: if `change_list_sweep` fails the whole state is unchanged; if
  it succeeds and `start_list_sweep` fails, the local controller fields
  are unchanged but the instrument-side program selection has already
  moved to the toggled direction;
* pause: `rf_remaining_time` is committed BEFORE the first instrument
  call of `end_volt_evol`, so a failure there leaves the captured time
  stored with the periodic timer still active — a partial-state
  commit. -/
theorem C4_amended :
    (∀ (env : InstrEnv) (s : RFState) (d : Bool) (r : ℕ),
      env.startOk = false → s.remainingTime ≠ 0 →
        toggle_volt_evolE env d r s = (s, true)) ∧
    (∀ (env : InstrEnv) (s : RFState) (d : Bool) (r : ℕ),
      env.changeOk = false → s.remainingTime = 0 → s.timerActive = false →
        toggle_volt_evolE env d r s = (s, true)) ∧
    (∀ (env : InstrEnv) (s : RFState) (d : Bool) (r : ℕ),
      env.changeOk = true → env.startOk = false →
      s.remainingTime = 0 → s.timerActive = false →
        toggle_volt_evolE env d r s =
          ({ s with selectedProgram := some (dirOf d) }, true)) ∧
    (∀ (env : InstrEnv) (s : RFState) (d : Bool) (r : ℕ),
      env.statusOk = false → s.remainingTime = 0 → s.timerActive = true →
        toggle_volt_evolE env d r s = ({ s with remainingTime := r }, true)) := by
  refine ⟨?_, ?_, ?_, ?_⟩
  · intro env s d r h1 h2
    simp [toggle_volt_evolE, h1, h2]
  · intro env s d r h1 h2 h3
    simp [toggle_volt_evolE, h1, h2, h3]
  · intro env s d r h1 h2 h3 h4
    simp [toggle_volt_evolE, h1, h2, h3, h4]
  · intro env s d r h1 h2 h3
    simp [toggle_volt_evolE, end_volt_evolE, h1, h2, h3]

/-- Witness for the amended C4: one concrete instance per branch. -/
theorem C4_amended_witness :
    toggle_volt_evolE badStartEnv true 0 pausedState = (pausedState, true) ∧
    toggle_volt_evolE badChangeEnv true 0 freshState = (freshState, true) ∧
    toggle_volt_evolE badStartEnv true 0 freshState =
      ({ freshState with selectedProgram := some (dirOf true) }, true) ∧
    toggle_volt_evolE badStatusEnv false 700 runState =
      ({ runState with remainingTime := 700 }, true) :=
  ⟨C4_amended.1 badStartEnv pausedState true 0 (by decide) (by decide),
   C4_amended.2.1 badChangeEnv freshState true 0 (by decide) (by decide)
     (by decide),
   C4_amended.2.2.1 badStartEnv freshState true 0 (by decide) (by decide)
     (by decide) (by decide),
   C4_amended.2.2.2 badStatusEnv runState false 700 (by decide) (by decide)
     (by decide)⟩

/-! ### Evaluation lemmas for the numpy value model -/

/-- `npDiv` on two finite values. -/
lemma npDiv_fin_fin (a b : ℚ) :
    npDiv (NpVal.fin a) (NpVal.fin b) =
      if b = 0 then NpVal.nonfinite else NpVal.fin (a / b) := rfl

/-- `npMul` on two finite values. -/
lemma npMul_fin_fin (a b : ℚ) :
    npMul (NpVal.fin a) (NpVal.fin b) = NpVal.fin (a * b) := rfl

/-- `npAdd` on two finite values. -/
lemma npAdd_fin_fin (a b : ℚ) :
    npAdd (NpVal.fin a) (NpVal.fin b) = NpVal.fin (a + b) := rfl

/-- A non-finite factor propagates through `npMul`. -/
lemma npMul_nonfinite_left (y : NpVal) :
    npMul NpVal.nonfinite y = NpVal.nonfinite := by
  cases y <;> rfl

/-- A non-finite summand propagates through `npAdd`. -/
lemma npAdd_nonfinite_left (y : NpVal) :
    npAdd NpVal.nonfinite y = NpVal.nonfinite := by
  cases y <;> rfl

/-! ### C7 — zero-span formula does not fail; it uploads non-finite values -/

/-- C7 (claim is right, code is wrong).  A formula that is constant over
the time samples (here `f ≡ 0` with `T = 1, N = 4`, e.g. formula text
`"t*0"`) makes the span `V_t[-1] - V_t[0]` zero; numpy's elementwise
division then emits only a RuntimeWarning and yields nan, so
`preview_volt_evol` raises nothing: the computation SUCCEEDS with a
list of five non-finite values, and that list is handed to
`rf.set_list_sweep` as the closing program (and its reverse as the
opening program) — there is no `DegenerateFormulaError` and the upload
is not prevented. -/
theorem C7_zero_span_uploads :
    previewCompute 0 10 1 4 (fun _ => 0) =
      some [NpVal.nonfinite, NpVal.nonfinite, NpVal.nonfinite,
            NpVal.nonfinite, NpVal.nonfinite] ∧
    Cmd.setListSweep Direction.closing
      [NpVal.nonfinite, NpVal.nonfinite, NpVal.nonfinite,
       NpVal.nonfinite, NpVal.nonfinite] ∈
      (preview_volt_evol 0 10 1 4 (fun _ => 0) freshState).2 := by
  have hr : List.range 5 = [0, 1, 2, 3, 4] := rfl
  have h : previewCompute 0 10 1 4 (fun _ => 0) =
      some [NpVal.nonfinite, NpVal.nonfinite, NpVal.nonfinite,
            NpVal.nonfinite, NpVal.nonfinite] := by
    norm_num [previewCompute, timeSamples, hr, npRescale, npDiv_fin_fin,
              npMul_nonfinite_left, npAdd_nonfinite_left]
  refine ⟨h, ?_⟩
  simp [preview_volt_evol, h, endCmds]

/-! ### C8 — upload does not start a sweep, but preview does not leave
execution state unaffected -/

/-- C8 counterexample.  Run a preview while the opening sweep of
`runState` is `Running`: afterwards the controller phase is `Idle` and
the instrument has been halted (`end_volt_evol` runs unconditionally at
the end of `preview_volt_evol`, stopping the timer and issuing
`stop_sweep`), so the execution state is NOT what it was before the
upload. -/
theorem C8_counterexample :
    phase runState = Phase.Running ∧ runState.instrRunning = true ∧
    phase (preview_volt_evol 0 10 1 4 (fun t => t) runState).1 = Phase.Idle ∧
    (preview_volt_evol 0 10 1 4 (fun t => t) runState).1.instrRunning = false := by
  decide

/-- C8 amended.  The upload itself never starts execution: among the
instrument commands issued by `preview_volt_evol` there is no
`start_list_sweep` and no `change_list_sweep`.  But the preview is not
execution-state preserving: it always ends with `end_volt_evol`, so
afterwards the instrument is halted, the periodic timer stopped, and
(provided no resume one-shot is pending — such a shot cannot be
cancelled) the controller phase is `Idle` whatever it was before. -/
theorem C8_amended (Vo Vc T : ℚ) (N : ℕ) (f : ℚ → ℚ) (s : RFState) :
    Cmd.startSweep ∉ (preview_volt_evol Vo Vc T N f s).2 ∧
    (∀ d, Cmd.changeListSweep d ∉ (preview_volt_evol Vo Vc T N f s).2) ∧
    (preview_volt_evol Vo Vc T N f s).1.instrRunning = false ∧
    (preview_volt_evol Vo Vc T N f s).1.timerActive = false ∧
    (s.resumePending = false →
      phase (preview_volt_evol Vo Vc T N f s).1 = Phase.Idle) := by
  rcases h : previewCompute Vo Vc T N f with _ | V <;>
    simp [preview_volt_evol, h, endCmds, end_volt_evol, end_volt_evolE, okEnv,
          unlock_rf_control, phase]

/-- Witness for the amended C8 at a concrete preview over the running
state `runState`. -/
theorem C8_amended_witness :
    Cmd.startSweep ∉ (preview_volt_evol 0 10 1 4 (fun t => t) runState).2 ∧
    phase (preview_volt_evol 0 10 1 4 (fun t => t) runState).1 = Phase.Idle :=
  ⟨(C8_amended 0 10 1 4 (fun t => t) runState).1,
   (C8_amended 0 10 1 4 (fun t => t) runState).2.2.2.2 (by decide)⟩

/-! ### C9 — invalidation of the trap actions on input changes -/

/-- C9 counterexample.  From `disabledState` (both trap actions
disabled after an input change) run a preview that FAILS — here
`open_v = 10 > 0 = close_v` raises, so `previewCompute` is `none` and
the error text is drawn.  The trailing unconditional
`end_volt_evol()` of `preview_volt_evol` nevertheless re-enables BOTH
trap buttons: a failed preview does not leave the open/close actions
disabled, contradicting the claim. -/
theorem C9_counterexample :
    previewCompute 10 0 1 4 (fun t => t) = none ∧
    disabledState.openBtn.enabled = false ∧
    disabledState.closeBtn.enabled = false ∧
    (preview_volt_evol 10 0 1 4 (fun t => t) disabledState).1.openBtn.enabled =
      true ∧
    (preview_volt_evol 10 0 1 4 (fun t => t) disabledState).1.closeBtn.enabled =
      true := by
  decide

/-- C9 amended.  A change of a control whose change signal is hooked
(`QDoubleSpinBox` voltages / frequency / step interval, the `QLineEdit`
formula) disables both trap actions; a change of the step-count spin
box (`rf_num_steps`, a plain `QSpinBox`) matches neither branch of the
hook loop and leaves the state — in particular the enabled trap
actions — completely unchanged; and EVERY completed preview, failed or
successful, re-enables both trap actions through its trailing
`end_volt_evol()`. -/
theorem C9_amended :
    (∀ (s : RFState) (c : Control), disableHookConnected c = true →
      (inputChange c s).openBtn.enabled = false ∧
      (inputChange c s).closeBtn.enabled = false) ∧
    (∀ s : RFState, inputChange Control.numSteps s = s) ∧
    (∀ (Vo Vc T : ℚ) (N : ℕ) (f : ℚ → ℚ) (s : RFState),
      (preview_volt_evol Vo Vc T N f s).1.openBtn.enabled = true ∧
      (preview_volt_evol Vo Vc T N f s).1.closeBtn.enabled = true) := by
  refine ⟨?_, ?_, ?_⟩
  · intro s c hc
    simp [inputChange, hc]
  · intro s
    rfl
  · intro Vo Vc T N f s
    rcases h : previewCompute Vo Vc T N f with _ | V <;>
      simp [preview_volt_evol, h, end_volt_evol, end_volt_evolE, okEnv,
            unlock_rf_control]

/-- Witness for the amended C9 at the step-interval control. -/
theorem C9_amended_witness :
    (inputChange Control.stepInt freshState).openBtn.enabled = false ∧
    (inputChange Control.stepInt freshState).closeBtn.enabled = false :=
  C9_amended.1 freshState Control.stepInt (by decide)


/-! ### C5/C6 — endpoints and program symmetry of the computed profile -/

/-- The last element of a list extended by one element, any fallback. -/
lemma getLastD_append_singleton {α : Type} (l : List α) (a : α) :
    ∀ d, (l ++ [a]).getLastD d = a := by
  induction l with
  | nil => intro d; rfl
  | cons x xs ih =>
      intro d
      cases xs with
      | nil => rfl
      | cons y ys =>
          rw [List.cons_append, List.getLastD_cons]
          exact ih x

/-- The head of a function mapped over `List.range (n + 1)`. -/
lemma headI_map_range {α : Type} [Inhabited α] (g : ℕ → α) (n : ℕ) :
    ((List.range (n + 1)).map g).headI = g 0 := by
  rw [List.range_succ_eq_map]
  rfl

/-- The last element of a function mapped over `List.range (n + 1)`. -/
lemma getLastD_map_range {α : Type} (g : ℕ → α) (n : ℕ) (d : α) :
    ((List.range (n + 1)).map g).getLastD d = g n := by
  rw [List.range_succ, List.map_append]
  exact getLastD_append_singleton _ _ _

/-- C5.  For valid inputs (`open_v ≤ close_v`, `step_count ≥ 1`,
`step_interval > 0`) and a formula evaluating with nonzero span over
the time samples, the profile computation succeeds and the computed
voltage sequence — the affine rescaling
`V_i = v_i * (close_v - open_v) + open_v` of the normalised samples —
has length `step_count + 1`, first element exactly `open_v` and last
element (index `step_count`) exactly `close_v`; in exact rational
arithmetic no floating-point tolerance is needed. -/
theorem C5_profile_endpoints (Vo Vc T : ℚ) (N : ℕ) (f : ℚ → ℚ)
    (hV : Vo ≤ Vc) (hN : 1 ≤ N) (_hT : 0 < T)
    (hspan : f ((N : ℚ) * T) - f 0 ≠ 0) :
    previewCompute Vo Vc T N f =
      some (npRescale ((timeSamples T N).map f) Vo Vc) ∧
    (npRescale ((timeSamples T N).map f) Vo Vc).length = N + 1 ∧
    (npRescale ((timeSamples T N).map f) Vo Vc)[0]? = some (NpVal.fin Vo) ∧
    (npRescale ((timeSamples T N).map f) Vo Vc)[N]? = some (NpVal.fin Vc) := by
  have hmap : (timeSamples T N).map f =
      List.map (fun i : ℕ => f ((i : ℚ) * T)) (List.range (N + 1)) := by
    rw [timeSamples, List.map_map]
    rfl
  have hhead : ((timeSamples T N).map f).headI = f 0 := by
    rw [hmap, headI_map_range]
    norm_num
  have hlast : ((timeSamples T N).map f).getLastD 0 = f ((N : ℚ) * T) := by
    rw [hmap, getLastD_map_range]
  have hget0 : ((timeSamples T N).map f)[0]? = some (f 0) := by
    rw [hmap, List.getElem?_map,
        List.getElem?_range (show 0 < N + 1 by omega)]
    norm_num
  have hgetN : ((timeSamples T N).map f)[N]? = some (f ((N : ℚ) * T)) := by
    rw [hmap, List.getElem?_map,
        List.getElem?_range (show N < N + 1 by omega)]
    rfl
  refine ⟨by simp [previewCompute, not_lt.mpr hV], ?_, ?_, ?_⟩
  · rw [npRescale, List.length_map, hmap, List.length_map, List.length_range]
  · simp only [npRescale, List.getElem?_map, hget0, hhead, hlast,
               Option.map_some', npDiv_fin_fin, if_neg hspan,
               npMul_fin_fin, npAdd_fin_fin]
    congr 2
    ring
  · simp only [npRescale, List.getElem?_map, hgetN, hhead, hlast,
               Option.map_some', npDiv_fin_fin, if_neg hspan, div_self hspan,
               npMul_fin_fin, npAdd_fin_fin]
    congr 2
    ring

/-- Witness for C5 at the spec's worked example
`open_v = 0, close_v = 10, step_interval = 1, step_count = 4,
formula = "t"`. -/
theorem C5_witness :
    previewCompute 0 10 1 4 (fun t => t) =
      some (npRescale ((timeSamples 1 4).map (fun t => t)) 0 10) ∧
    (npRescale ((timeSamples 1 4).map (fun t => t)) 0 10).length = 4 + 1 ∧
    (npRescale ((timeSamples 1 4).map (fun t => t)) 0 10)[0]? =
      some (NpVal.fin 0) ∧
    (npRescale ((timeSamples 1 4).map (fun t => t)) 0 10)[4]? =
      some (NpVal.fin 10) :=
  C5_profile_endpoints 0 10 1 4 (fun t => t) (by norm_num) (by norm_num)
    (by norm_num) (by norm_num)

/-- C6.  Whenever the profile computation succeeds, the uploaded opening
program is exactly the element-wise reverse of the uploaded closing
program, and the closing program is the computed voltage sequence in
its original (as-computed) order. -/
theorem C6_programs_reverse (Vo Vc T : ℚ) (N : ℕ) (f : ℚ → ℚ) (p : Programs)
    (h : previewPrograms Vo Vc T N f = some p) :
    p.opening = p.closing.reverse ∧
    previewCompute Vo Vc T N f = some p.closing := by
  rcases hc : previewCompute Vo Vc T N f with _ | V
  · rw [previewPrograms, hc] at h
    cases h
  · rw [previewPrograms, hc] at h
    simp only [Option.map_some', Option.some.injEq] at h
    subst h
    exact ⟨rfl, rfl⟩

/-- Witness for C6 at the spec's worked example: the closing program is
`[0, 2.5, 5, 7.5, 10]` and the opening program its reverse. -/
theorem C6_witness :
    examplePrograms.opening = examplePrograms.closing.reverse ∧
    previewCompute 0 10 1 4 (fun t => t) = some examplePrograms.closing := by
  have hr : List.range 5 = [0, 1, 2, 3, 4] := rfl
  have h : previewPrograms 0 10 1 4 (fun t => t) = some examplePrograms := by
    norm_num [previewPrograms, previewCompute, timeSamples, hr, npRescale,
              npDiv_fin_fin, npMul_fin_fin, npAdd_fin_fin, examplePrograms]
  exact C6_programs_reverse 0 10 1 4 (fun t => t) examplePrograms h

end IonGui
